import Mathlib

/-!
Shallow embedding of the `glu` crate's core (coordinate units, event-state
translation, fixed-interval stepper) and proofs of the specification claims.

Floating-point values (`f32` wrapped in `noisy_float::R32`, which excludes
NaN) are modelled as exact rationals; Rust's `f32::round` (round half away
from zero) is modelled by `rustRound`.  Machine integers are modelled as
`Nat`/`Int`.  Fallible operations (Rust panics) are modelled with `Option`.
-/

namespace Glu

/-- Rust `f32::round`: rounds to the nearest integer, half away from zero.
Used by `Screen2d::to_physical` (`(v * self.hidpi_factor).raw().round() as i32`). -/
def rustRound (q : ℚ) : ℤ :=
  if 0 ≤ q then ⌊q + 1/2⌋ else ⌈q - 1/2⌉

/-- `Screen2d` (src/screen_units.rs): a 2D screen position or size, stored as a
logical-space value plus the logical-to-physical scale factor. -/
structure Screen2d where
  logical : ℚ × ℚ
  hidpi_factor : ℚ
  deriving DecidableEq, Repr

namespace Screen2d

/-- `Screen2d::from_logical` (src/screen_units.rs:14-19).  The source performs
no validation beyond `r32`'s NaN exclusion: any finite factor is accepted. -/
def from_logical (logical : ℚ × ℚ) (hidpi_factor : ℚ) : Screen2d :=
  { logical := logical, hidpi_factor := hidpi_factor }

/-- `Screen2d::from_physical_f32` (src/screen_units.rs:26-29): back-computes the
logical value by dividing each component by the factor. -/
def from_physical_f32 (physical : ℚ × ℚ) (hidpi_factor : ℚ) : Screen2d :=
  from_logical (physical.1 / hidpi_factor, physical.2 / hidpi_factor) hidpi_factor

/-- `Screen2d::to_physical` (src/screen_units.rs:77-79). -/
def to_physical (s : Screen2d) (v : ℚ) : ℤ :=
  rustRound (v * s.hidpi_factor)

/-- `Screen2d::physical` (src/screen_units.rs:61-66). -/
def physical (s : Screen2d) : ℤ × ℤ :=
  (s.to_physical s.logical.1, s.to_physical s.logical.2)

/-- `Screen2d::physical_u32` (src/screen_units.rs:67-76); the panic on a
negative component is modelled as `none`. -/
def physical_u32 (s : Screen2d) : Option (ℕ × ℕ) :=
  let phys := s.physical
  if phys.1 < 0 ∨ phys.2 < 0 then none
  else some (phys.1.toNat, phys.2.toNat)

/-- `impl Add for Screen2d` (src/screen_units.rs:114-125): component-wise sum of
the logical values, keeping `self`'s scale factor. -/
def add (s other : Screen2d) : Screen2d :=
  { logical := (s.logical.1 + other.logical.1, s.logical.2 + other.logical.2),
    hidpi_factor := s.hidpi_factor }

/-- `impl Sub for Screen2d` (src/screen_units.rs:96-107): component-wise
difference of the logical values, keeping `self`'s scale factor. -/
def sub (s other : Screen2d) : Screen2d :=
  { logical := (s.logical.1 - other.logical.1, s.logical.2 - other.logical.2),
    hidpi_factor := s.hidpi_factor }

end Screen2d

/-- `TimeStep` (src/time_step.rs): the fixed-interval stepper's persistent
state.  `last_inst` is replaced by passing the measured elapsed delta to
`tick` directly. -/
structure TimeStep where
  freq_nanos : ℕ
  max_missed : ℕ
  elapsed_nanos : ℕ
  deriving DecidableEq, Repr

namespace TimeStep

/-- `TimeStep::for_freq_ms` (src/time_step.rs:25-32).  No validation is
performed: `freq_msec` is a `u32`, and 0 is accepted without fault. -/
def for_freq_ms (freq_msec : ℕ) : TimeStep :=
  { freq_nanos := freq_msec * 1000000, max_missed := 1, elapsed_nanos := 0 }

/-- `TimeStep::max_missed_steps_before_discard` (src/time_step.rs:37-40). -/
def max_missed_steps_before_discard (ts : TimeStep) (max_miss : ℕ) : TimeStep :=
  { ts with max_missed := max_miss }

/-- The `while` loop of `TimeStep::tick` (src/time_step.rs:60-73), with fuel
for termination (one unit per loop iteration; `tick` supplies enough whenever
`freq > 0`).  The first component counts callback invocations, the second is
the final accumulator value. -/
def tickLoop (freq maxMissed : ℕ) : ℕ → ℕ → ℕ → ℕ × ℕ
  | 0, _, elapsed => (0, elapsed)
  | fuel + 1, count, elapsed =>
    if freq ≤ elapsed then
      -- self.elapsed_nanos -= self.freq_nanos; callback();
      if maxMissed ≤ count ∧ freq ≤ elapsed - freq then
        -- reached maximum missed steps with more to go: reset and return
        (1, 0)
      else
        ((tickLoop freq maxMissed fuel (count + 1) (elapsed - freq)).1 + 1,
         (tickLoop freq maxMissed fuel (count + 1) (elapsed - freq)).2)
    else (0, elapsed)

/-- `TimeStep::tick` (src/time_step.rs:54-74): `update_elapsed` adds the
wall-clock delta to the accumulator, then the catch-up loop runs.  Returns
the number of callback invocations and the updated stepper.  The fuel
`elapsed / freq + 1` bounds the loop's iteration count whenever the
frequency is positive. -/
def tick (ts : TimeStep) (delta : ℕ) : ℕ × TimeStep :=
  let elapsed := ts.elapsed_nanos + delta
  let r := tickLoop ts.freq_nanos ts.max_missed (elapsed / ts.freq_nanos + 1) 0 elapsed
  (r.1, { ts with elapsed_nanos := r.2 })

end TimeStep

/-- `Event::text_char` (src/event.rs:560-574): the text-input filter, on raw
code points.  Control characters at or below 31 are suppressed except tab
(code 9, kept) and carriage return (code 13, mapped to line feed 10); the
delete character 127 is suppressed; everything else passes through. -/
def text_char (ch : ℕ) : Option ℕ :=
  if ch ≤ 31 then
    if ch = 9 then some ch
    else if ch = 13 then some 10
    else none
  else if ch = 127 then none
  else some ch

/-- The `KeyText` event payload (src/event.rs:147-151): the raw code point and
the filtered character. -/
structure KeyText where
  codepoint : ℕ
  ch : Option ℕ
  deriving DecidableEq, Repr

/-- The `ReceivedCharacter` arm of `Event::from_window_event`
(src/event.rs:272-286): with ctrl down the filtered field is `none`;
otherwise it is `text_char` of the code point.  The raw code point is carried
unchanged either way. -/
def receivedCharacter (ctrl_down : Bool) (codepoint : ℕ) : KeyText :=
  if ctrl_down then
    { codepoint := codepoint, ch := none }
  else
    { codepoint := codepoint, ch := text_char codepoint }

/-- `MouseButton` (src/event.rs:578-584). -/
inductive MouseButton where
  | left
  | right
  | middle
  | other (n : ℕ)
  deriving DecidableEq, Repr

/-- `MouseButtonState` (src/event_state.rs:149-159), without the redundant
`button` tag. -/
structure MouseButtonState where
  pressed : Bool
  pressed_at : Screen2d
  cancelled : Bool
  deriving DecidableEq, Repr

/-- `EventState` (src/event_state.rs:8-22), restricted to the fields the
mouse/keyboard arms of the translator touch. -/
structure EventState where
  mouse_pos : Screen2d
  mouse_activity_start : Screen2d
  mouse_in_window : Bool
  mouse_left : MouseButtonState
  mouse_middle : MouseButtonState
  mouse_right : MouseButtonState
  deriving DecidableEq, Repr

namespace EventState

/-- `EventState::is_any_mouse_button_pressed` (src/event_state.rs:109-111). -/
def is_any_mouse_button_pressed (s : EventState) : Bool :=
  s.mouse_left.pressed || s.mouse_middle.pressed || s.mouse_right.pressed

/-- `EventState::get_mouse_pressed_at` (src/event_state.rs:112-123): the
press-origin of the first pressed button in the order left, middle, right. -/
def get_mouse_pressed_at (s : EventState) : Option Screen2d :=
  if s.mouse_left.pressed then some s.mouse_left.pressed_at
  else if s.mouse_middle.pressed then some s.mouse_middle.pressed_at
  else if s.mouse_right.pressed then some s.mouse_right.pressed_at
  else none

/-- `EventState::get_mouse_drag_dist` (src/event_state.rs:127-133). -/
def get_mouse_drag_dist (s : EventState) : Option Screen2d :=
  match s.get_mouse_pressed_at with
  | some start => some (s.mouse_pos.sub start)
  | none => none

end EventState

/-- The raw window events whose translation touches the mouse/keyboard parts
of `EventState` (src/event.rs:287-420): cursor movement (carrying the
already-converted logical position), mouse button press/release, cursor
enter/leave, and an escape-key press (src/event.rs:296-306). -/
inductive RawEvent where
  | cursorMoved (pos : Screen2d)
  | mouseDown (b : MouseButton)
  | mouseUp (b : MouseButton)
  | cursorEntered
  | cursorLeft
  | escapeDown
  deriving DecidableEq, Repr

/-- `Event::mouse_data_for` (src/event.rs:541-551): selects the tracked
button's state; `Other` buttons are not tracked.  Functional version:
returns the updated state given an update of the selected button. -/
def mouse_data_update (s : EventState) (b : MouseButton)
    (f : MouseButtonState → MouseButtonState) : EventState :=
  match b with
  | .left => { s with mouse_left := f s.mouse_left }
  | .middle => { s with mouse_middle := f s.mouse_middle }
  | .right => { s with mouse_right := f s.mouse_right }
  | .other _ => s

/-- One branch of the Escape arm (src/event.rs:296-306): sets `cancelled`
on a button exactly when it is currently pressed (`if ... .pressed {
... .cancelled = true; }`). -/
def cancel_if_pressed (d : MouseButtonState) : MouseButtonState :=
  if d.pressed then { d with cancelled := true } else d

/-- The state-updating side effects of `Event::from_window_event`
(src/event.rs:232-470) for the events of `RawEvent`:
cursor-moved (lines 326-342) stores the position and then, only when no
tracked button is pressed, the activity start; mouse press (lines 397-409)
sets `pressed`, records the current mouse position and clears `cancelled`;
mouse release (lines 410-419) clears only `pressed`; escape pressed
(lines 296-306) runs `cancel_if_pressed` on each of the three tracked
buttons (the source mutates the three fields in sequence; the fields are
independent, so the simultaneous record update is the same function). -/
def from_window_event (s : EventState) : RawEvent → EventState
  | .cursorMoved pos =>
    if ({ s with mouse_pos := pos } : EventState).is_any_mouse_button_pressed then
      { s with mouse_pos := pos }
    else
      { s with mouse_pos := pos, mouse_activity_start := pos }
  | .mouseDown b =>
    mouse_data_update s b fun d =>
      { d with pressed := true, pressed_at := s.mouse_pos, cancelled := false }
  | .mouseUp b =>
    mouse_data_update s b fun d => { d with pressed := false }
  | .cursorEntered => { s with mouse_in_window := true }
  | .cursorLeft => { s with mouse_in_window := false }
  | .escapeDown =>
    { s with
      mouse_left := cancel_if_pressed s.mouse_left
      mouse_right := cancel_if_pressed s.mouse_right
      mouse_middle := cancel_if_pressed s.mouse_middle }

/-- Folding a sequence of raw events through the translator's state updates. -/
def applyEvents (s : EventState) (evts : List RawEvent) : EventState :=
  evts.foldl from_window_event s

/-- The three buttons individually tracked by `EventState`
(src/event_state.rs:13-15); `Other` buttons are not tracked. -/
inductive TrackedBtn where
  | left
  | middle
  | right
  deriving DecidableEq, Repr

/-- The `MouseButton` a tracked button corresponds to. -/
def TrackedBtn.toButton : TrackedBtn → MouseButton
  | .left => .left
  | .middle => .middle
  | .right => .right

/-- The `EventState` field holding a tracked button's state. -/
def getBtn (s : EventState) : TrackedBtn → MouseButtonState
  | .left => s.mouse_left
  | .middle => s.mouse_middle
  | .right => s.mouse_right

/-- Accumulator step for `lastPress`: a press or release of the given button
overwrites the record, every other event keeps it. -/
def lastPressUpd (b : TrackedBtn) (acc : Option Bool) : RawEvent → Option Bool
  | .mouseDown b2 => if b2 = b.toButton then some true else acc
  | .mouseUp b2 => if b2 = b.toButton then some false else acc
  | _ => acc

/-- Whether the most recent press/release event on button `b` in the
sequence is a press (`some true`), a release (`some false`), or absent
(`none`).  Used to state the spec's characterisation of `pressed`. -/
def lastPress (b : TrackedBtn) (evts : List RawEvent) : Option Bool :=
  evts.foldl (lastPressUpd b) none

/-- A fresh `EventState` as `EventState::new` builds it (src/event_state.rs:24-54):
mouse at logical origin, no button pressed, nothing cancelled. -/
def initState (hidpi_factor : ℚ) : EventState :=
  { mouse_pos := Screen2d.from_logical (0, 0) hidpi_factor
    mouse_activity_start := Screen2d.from_logical (0, 0) hidpi_factor
    mouse_in_window := false
    mouse_left := { pressed := false,
                    pressed_at := Screen2d.from_logical (0, 0) 1, cancelled := false }
    mouse_middle := { pressed := false,
                      pressed_at := Screen2d.from_logical (0, 0) 1, cancelled := false }
    mouse_right := { pressed := false,
                     pressed_at := Screen2d.from_logical (0, 0) 1, cancelled := false } }

/-- `EventState::set_logical_line_height` (src/event_state.rs:101-107): the
`assert!(h >= 1.0)` panic is modelled as `none`. -/
def set_logical_line_height (h : ℚ) : Option ℚ :=
  if 1 ≤ h then some h else none

/-- `WindowData::new` (src/event_state.rs:178-186): the
`assert!(hidpi_factor > 0.0)` panic is modelled as `none`; this is the only
scale-factor validation in the crate. -/
def WindowData.new (dim : Screen2d) (hidpi_factor : ℚ) : Option (Screen2d × ℚ) :=
  if 0 < hidpi_factor then some (dim, hidpi_factor) else none

/-! ## Helper lemmas about the event-state machine -/

theorem getBtn_mouse_data_update_ne (s : EventState)
    (f : MouseButtonState → MouseButtonState) {b2 : MouseButton} {b : TrackedBtn}
    (h : b2 ≠ b.toButton) :
    getBtn (mouse_data_update s b2 f) b = getBtn s b := by
  cases b <;> cases b2 <;>
    simp_all [mouse_data_update, getBtn, TrackedBtn.toButton]

theorem getBtn_mouse_data_update_eq (s : EventState)
    (f : MouseButtonState → MouseButtonState) (b : TrackedBtn) :
    getBtn (mouse_data_update s b.toButton f) b = f (getBtn s b) := by
  cases b <;> rfl

theorem cancel_if_pressed_eq (d : MouseButtonState) :
    cancel_if_pressed d = { d with cancelled := d.cancelled || d.pressed } := by
  cases d with
  | mk p pa c => cases p <;> simp [cancel_if_pressed]

theorem getBtn_escape (s : EventState) (b : TrackedBtn) :
    getBtn (from_window_event s RawEvent.escapeDown) b =
      { getBtn s b with
        cancelled := (getBtn s b).cancelled || (getBtn s b).pressed } := by
  cases b <;> simp [from_window_event, getBtn, cancel_if_pressed_eq]

theorem getBtn_cursorMoved (s : EventState) (p : Screen2d) (b : TrackedBtn) :
    getBtn (from_window_event s (RawEvent.cursorMoved p)) b = getBtn s b := by
  cases b <;> simp only [from_window_event] <;> split <;> rfl

theorem getBtn_cursorEntered (s : EventState) (b : TrackedBtn) :
    getBtn (from_window_event s RawEvent.cursorEntered) b = getBtn s b := by
  cases b <;> rfl

theorem getBtn_cursorLeft (s : EventState) (b : TrackedBtn) :
    getBtn (from_window_event s RawEvent.cursorLeft) b = getBtn s b := by
  cases b <;> rfl

/-- Folding the last-press/release recorder from an arbitrary accumulator:
the result is the sequence's own record when one exists, the accumulator
otherwise. -/
theorem lastPress_acc (b : TrackedBtn) :
    ∀ (evts : List RawEvent) (acc : Option Bool),
      evts.foldl (lastPressUpd b) acc =
        match lastPress b evts with
        | some v => some v
        | none => acc := by
  intro evts
  induction evts with
  | nil => intro acc; rfl
  | cons e rest ih =>
    intro acc
    show rest.foldl (lastPressUpd b) (lastPressUpd b acc e) = _
    rw [ih (lastPressUpd b acc e)]
    have hcons : lastPress b (e :: rest) =
        match lastPress b rest with
        | some v => some v
        | none => lastPressUpd b none e := by
      show rest.foldl (lastPressUpd b) (lastPressUpd b none e) = _
      rw [ih (lastPressUpd b none e)]
    rw [hcons]
    cases hlp : lastPress b rest with
    | some v => rfl
    | none =>
      cases e with
      | cursorMoved p => rfl
      | mouseDown b2 =>
        by_cases hb : b2 = b.toButton <;>
          simp [lastPressUpd, hb]
      | mouseUp b2 =>
        by_cases hb : b2 = b.toButton <;>
          simp [lastPressUpd, hb]
      | cursorEntered => rfl
      | cursorLeft => rfl
      | escapeDown => rfl

/-- The `pressed` flag after a sequence of events is the most recent
press/release record on that button, or the starting flag when there is
none. -/
theorem pressed_applyEvents (b : TrackedBtn) :
    ∀ (evts : List RawEvent) (s : EventState),
      (getBtn (applyEvents s evts) b).pressed =
        match lastPress b evts with
        | some v => v
        | none => (getBtn s b).pressed := by
  intro evts
  induction evts with
  | nil => intro s; rfl
  | cons e rest ih =>
    intro s
    show (getBtn (applyEvents (from_window_event s e) rest) b).pressed = _
    rw [ih (from_window_event s e)]
    have hcons : lastPress b (e :: rest) =
        match lastPress b rest with
        | some v => some v
        | none => lastPressUpd b none e := by
      show rest.foldl (lastPressUpd b) (lastPressUpd b none e) = _
      rw [lastPress_acc b rest (lastPressUpd b none e)]
    rw [hcons]
    cases hlp : lastPress b rest with
    | some v => rfl
    | none =>
      cases e with
      | cursorMoved p => rw [getBtn_cursorMoved]; rfl
      | mouseDown b2 =>
        by_cases hb : b2 = b.toButton
        · subst hb
          simp only [from_window_event]
          rw [getBtn_mouse_data_update_eq]
          simp [lastPressUpd]
        · simp only [from_window_event]
          rw [getBtn_mouse_data_update_ne s _ hb]
          simp [lastPressUpd, hb]
      | mouseUp b2 =>
        by_cases hb : b2 = b.toButton
        · subst hb
          simp only [from_window_event]
          rw [getBtn_mouse_data_update_eq]
          simp [lastPressUpd]
        · simp only [from_window_event]
          rw [getBtn_mouse_data_update_ne s _ hb]
          simp [lastPressUpd, hb]
      | cursorEntered => rw [getBtn_cursorEntered]; rfl
      | cursorLeft => rw [getBtn_cursorLeft]; rfl
      | escapeDown => rw [getBtn_escape]; rfl

/-- The `cancelled` flag can only be set by an escape event arriving while
the button is pressed (or have been set already at the start). -/
theorem cancelled_only_if (b : TrackedBtn) :
    ∀ (evts : List RawEvent) (s : EventState),
      (getBtn (applyEvents s evts) b).cancelled = true →
      (getBtn s b).cancelled = true ∨
      ∃ i, ∃ h : i < evts.length, evts.get ⟨i, h⟩ = RawEvent.escapeDown ∧
        (getBtn (applyEvents s (evts.take i)) b).pressed = true := by
  intro evts
  induction evts with
  | nil => intro s h; exact Or.inl h
  | cons e rest ih =>
    intro s h
    have h2 : (getBtn (applyEvents (from_window_event s e) rest) b).cancelled = true := h
    rcases ih (from_window_event s e) h2 with hc | ⟨i, hi, hesc, hp⟩
    · cases e with
      | cursorMoved p => rw [getBtn_cursorMoved] at hc; exact Or.inl hc
      | mouseDown b2 =>
        by_cases hb : b2 = b.toButton
        · subst hb
          simp only [from_window_event] at hc
          rw [getBtn_mouse_data_update_eq] at hc
          simp at hc
        · simp only [from_window_event] at hc
          rw [getBtn_mouse_data_update_ne s _ hb] at hc
          exact Or.inl hc
      | mouseUp b2 =>
        by_cases hb : b2 = b.toButton
        · subst hb
          simp only [from_window_event] at hc
          rw [getBtn_mouse_data_update_eq] at hc
          exact Or.inl hc
        · simp only [from_window_event] at hc
          rw [getBtn_mouse_data_update_ne s _ hb] at hc
          exact Or.inl hc
      | cursorEntered => rw [getBtn_cursorEntered] at hc; exact Or.inl hc
      | cursorLeft => rw [getBtn_cursorLeft] at hc; exact Or.inl hc
      | escapeDown =>
        rw [getBtn_escape] at hc
        have hc2 : ((getBtn s b).cancelled || (getBtn s b).pressed) = true := hc
        have hc3 : (getBtn s b).cancelled = true ∨ (getBtn s b).pressed = true := by
          simpa using hc2
        rcases hc3 with h1 | h1
        · exact Or.inl h1
        · exact Or.inr ⟨0, Nat.succ_pos _, rfl, h1⟩
    · refine Or.inr ⟨i + 1, Nat.succ_lt_succ hi, hesc, hp⟩

/-! ## Claims -/

/-- Closed form of the stepper's catch-up loop: starting the loop with
invocation counter `count`, it fires `min (elapsed / freq) (maxMissed - count + 1)`
times; when the backlog exceeds the cap the accumulator is reset to 0,
otherwise it ends at `elapsed % freq`. -/
theorem tickLoop_closed (freq maxMissed : ℕ) (hf : 0 < freq) :
    ∀ fuel count elapsed, elapsed / freq < fuel →
      TimeStep.tickLoop freq maxMissed fuel count elapsed =
        if maxMissed - count + 1 < elapsed / freq
        then (maxMissed - count + 1, 0)
        else (elapsed / freq, elapsed % freq) := by
  intro fuel
  induction fuel with
  | zero => intro count elapsed h; exact absurd h (Nat.not_lt_zero _)
  | succ n ih =>
    intro count elapsed h
    rw [TimeStep.tickLoop]
    by_cases hge : freq ≤ elapsed
    · rw [if_pos hge]
      have hd : elapsed / freq = (elapsed - freq) / freq + 1 :=
        Nat.div_eq_sub_div hf hge
      have hm : elapsed % freq = (elapsed - freq) % freq :=
        Nat.mod_eq_sub_mod hge
      by_cases hstop : maxMissed ≤ count ∧ freq ≤ elapsed - freq
      · rw [if_pos hstop]
        have h1 : 1 ≤ (elapsed - freq) / freq := (Nat.one_le_div_iff hf).mpr hstop.2
        have hmc : maxMissed - count = 0 := by omega
        have hcond : maxMissed - count + 1 < elapsed / freq := by rw [hd]; omega
        rw [if_pos hcond, hmc]
      · rw [if_neg hstop]
        have hrec : (elapsed - freq) / freq < n := by rw [hd] at h; omega
        rw [ih (count + 1) (elapsed - freq) hrec, hd, hm]
        rcases Nat.lt_or_ge count maxMissed with hc | hc
        · have hmc : maxMissed - count = maxMissed - (count + 1) + 1 := by omega
          rw [hmc]
          by_cases hA : maxMissed - (count + 1) + 1 < (elapsed - freq) / freq
          · have hA2 : maxMissed - (count + 1) + 1 + 1 < (elapsed - freq) / freq + 1 := by
              omega
            rw [if_pos hA, if_pos hA2]
          · have hA2 : ¬(maxMissed - (count + 1) + 1 + 1 < (elapsed - freq) / freq + 1) := by
              omega
            rw [if_neg hA, if_neg hA2]
        · have he2 : elapsed - freq < freq := by
            rcases Decidable.not_and_iff_or_not.mp hstop with hx | hx
            · omega
            · omega
          have hA0 : (elapsed - freq) / freq = 0 := Nat.div_eq_of_lt he2
          rw [hA0]
          have hn1 : ¬(maxMissed - (count + 1) + 1 < 0) := Nat.not_lt_zero _
          have hn2 : ¬(maxMissed - count + 1 < 0 + 1) := by omega
          rw [if_neg hn1, if_neg hn2]
    · rw [if_neg hge]
      have hlt : elapsed < freq := by omega
      have hn : ¬(maxMissed - count + 1 < elapsed / freq) := by
        rw [Nat.div_eq_of_lt hlt]; omega
      rw [if_neg hn, Nat.div_eq_of_lt hlt, Nat.mod_eq_of_lt hlt]

/-- **C1.** For a stepper with positive interval `F`, cap `M` and accumulated
elapsed time `E` at the start of a `tick` call: the action fires
`min (E / F) (M + 1)` times (one invocation per full interval in the
accumulator, stopping once the per-call counter has reached `M` with a full
interval still remaining); on that early stop the accumulator is reset to 0
and the backlog discarded, otherwise it retains `E % F`; when `E < F` the
action never fires.  In particular at `F` = 500 ms, `M` = 1 and a single
1800 ms jump the action fires exactly twice and the accumulator ends at 0. -/
theorem stepper_tick_spec (F M E : ℕ) (hF : 0 < F) :
    ((TimeStep.tick ⟨F, M, E⟩ 0).1 = min (E / F) (M + 1)) ∧
    ((TimeStep.tick ⟨F, M, E⟩ 0).2.elapsed_nanos =
      if M + 1 < E / F then 0 else E % F) ∧
    (E < F → (TimeStep.tick ⟨F, M, E⟩ 0).1 = 0) ∧
    (TimeStep.tick (TimeStep.for_freq_ms 500) 1800000000).1 = 2 ∧
    (TimeStep.tick (TimeStep.for_freq_ms 500) 1800000000).2.elapsed_nanos = 0 := by
  have hloop := tickLoop_closed F M hF (E / F + 1) 0 E (Nat.lt_succ_self _)
  simp only [Nat.sub_zero] at hloop
  have htick : TimeStep.tick ⟨F, M, E⟩ 0 =
      ((TimeStep.tickLoop F M (E / F + 1) 0 E).1,
       { freq_nanos := F, max_missed := M,
         elapsed_nanos := (TimeStep.tickLoop F M (E / F + 1) 0 E).2 }) := rfl
  refine ⟨?_, ?_, ?_, by decide, by decide⟩
  · rw [htick, hloop]
    split
    · rename_i hlt
      exact (Nat.min_eq_right (by omega)).symm
    · rename_i hlt
      exact (Nat.min_eq_left (by omega)).symm
  · rw [htick, hloop]
    split
    · rfl
    · rfl
  · intro hEF
    rw [htick, hloop]
    have hdd : E / F = 0 := Nat.div_eq_of_lt hEF
    rw [hdd]
    have hn : ¬(M + 1 < 0) := Nat.not_lt_zero _
    rw [if_neg hn]

/-- Witness for **C1**: the general statement instantiated at the concrete
500 ms / cap-1 / 1800 ms configuration. -/
theorem stepper_tick_spec_witness :
    (TimeStep.tick ⟨500000000, 1, 1800000000⟩ 0).1 =
      min (1800000000 / 500000000) (1 + 1) :=
  (stepper_tick_spec 500000000 1 1800000000 (by norm_num)).1

/-- Rounding half away from zero moves a value by at most one half. -/
theorem rustRound_abs_le (q : ℚ) : |(rustRound q : ℚ) - q| ≤ 1 / 2 := by
  rw [rustRound]
  by_cases h : 0 ≤ q
  · rw [if_pos h]
    have h1 : (⌊q + 1 / 2⌋ : ℚ) ≤ q + 1 / 2 := Int.floor_le _
    have h2 : q + 1 / 2 < ⌊q + 1 / 2⌋ + 1 := Int.lt_floor_add_one _
    rw [abs_le]
    constructor <;> linarith
  · rw [if_neg h]
    have h1 : q - 1 / 2 ≤ (⌈q - 1 / 2⌉ : ℚ) := Int.le_ceil _
    have h2 : (⌈q - 1 / 2⌉ : ℚ) < q - 1 / 2 + 1 := Int.ceil_lt_add_one _
    rw [abs_le]
    constructor <;> linarith

/-- **C6.** For every positive scale factor `f` and logical value `v`,
converting to the rounded physical value and back yields a logical value
within one unit of rounding error per component — one physical pixel, i.e.
`1 / f` in logical units — and the same scale factor. -/
theorem roundtrip_spec (v : ℚ × ℚ) (f : ℚ) (hf : 0 < f) :
    |(Screen2d.from_physical_f32
        ((((Screen2d.from_logical v f).physical).1 : ℚ),
         (((Screen2d.from_logical v f).physical).2 : ℚ)) f).logical.1 - v.1| ≤ 1 / f ∧
    |(Screen2d.from_physical_f32
        ((((Screen2d.from_logical v f).physical).1 : ℚ),
         (((Screen2d.from_logical v f).physical).2 : ℚ)) f).logical.2 - v.2| ≤ 1 / f ∧
    (Screen2d.from_physical_f32
        ((((Screen2d.from_logical v f).physical).1 : ℚ),
         (((Screen2d.from_logical v f).physical).2 : ℚ)) f).hidpi_factor = f := by
  have hkey : ∀ x : ℚ, |(rustRound (x * f) : ℚ) / f - x| ≤ 1 / f := by
    intro x
    have h1 := rustRound_abs_le (x * f)
    have h2 : (rustRound (x * f) : ℚ) / f - x = ((rustRound (x * f) : ℚ) - x * f) / f := by
      field_simp
      ring
    rw [h2, abs_div, abs_of_pos hf]
    calc |(rustRound (x * f) : ℚ) - x * f| / f ≤ (1 / 2) / f := by gcongr
      _ ≤ 1 / f := by
        gcongr
        norm_num
  exact ⟨hkey v.1, hkey v.2, rfl⟩

/-- Witness for **C6**: the round trip at `v` = (10, 10), `f` = 2. -/
theorem roundtrip_spec_witness :
    |(Screen2d.from_physical_f32
        ((((Screen2d.from_logical (10, 10) 2).physical).1 : ℚ),
         (((Screen2d.from_logical (10, 10) 2).physical).2 : ℚ)) 2).logical.1 - 10| ≤ 1 / 2 :=
  (roundtrip_spec (10, 10) 2 (by norm_num)).1

/-- **C2.** For every sequence of translated events and every tracked button:
`pressed` is true iff the most recent press/release on that button was a
press; `cancelled` is true only if an escape arrived at a moment the button
was held (pressed, i.e. after a press with no intervening release); and the
per-event transitions are: press sets `pressed`, records the current mouse
position as origin and clears `cancelled`; release clears only `pressed`;
escape sets `cancelled` on a held button without clearing `pressed`. -/
theorem button_state_spec (b : TrackedBtn) (evts : List RawEvent) (f : ℚ) :
    ((getBtn (applyEvents (initState f) evts) b).pressed = true ↔
      lastPress b evts = some true) ∧
    ((getBtn (applyEvents (initState f) evts) b).cancelled = true →
      ∃ i, ∃ h : i < evts.length, evts.get ⟨i, h⟩ = RawEvent.escapeDown ∧
        (getBtn (applyEvents (initState f) (evts.take i)) b).pressed = true) ∧
    (∀ s : EventState,
      getBtn (from_window_event s (RawEvent.mouseDown b.toButton)) b =
        { pressed := true, pressed_at := s.mouse_pos, cancelled := false } ∧
      getBtn (from_window_event s (RawEvent.mouseUp b.toButton)) b =
        { getBtn s b with pressed := false } ∧
      getBtn (from_window_event s RawEvent.escapeDown) b =
        { getBtn s b with
          cancelled := (getBtn s b).cancelled || (getBtn s b).pressed }) := by
  have hinit_p : (getBtn (initState f) b).pressed = false := by cases b <;> rfl
  have hinit_c : (getBtn (initState f) b).cancelled = false := by cases b <;> rfl
  refine ⟨?_, ?_, ?_⟩
  · rw [pressed_applyEvents b evts (initState f)]
    cases hlp : lastPress b evts with
    | some v => cases v <;> simp
    | none => simp [hinit_p]
  · intro hc
    rcases cancelled_only_if b evts (initState f) hc with h0 | hex
    · rw [hinit_c] at h0; exact absurd h0 (by simp)
    · exact hex
  · intro s
    refine ⟨?_, ?_, getBtn_escape s b⟩
    · simp only [from_window_event]
      rw [getBtn_mouse_data_update_eq]
    · simp only [from_window_event]
      rw [getBtn_mouse_data_update_eq]

/-- Witness for **C2**: in the sequence press-left then escape, the final
`cancelled` flag is set and the escape (index 1) arrived while the left
button was held. -/
theorem button_state_spec_witness :
    ∃ i, ∃ h : i <
        ([RawEvent.mouseDown MouseButton.left,
          RawEvent.escapeDown] : List RawEvent).length,
      ([RawEvent.mouseDown MouseButton.left,
        RawEvent.escapeDown] : List RawEvent).get ⟨i, h⟩ = RawEvent.escapeDown ∧
      (getBtn (applyEvents (initState 1)
        (([RawEvent.mouseDown MouseButton.left,
           RawEvent.escapeDown] : List RawEvent).take i)) TrackedBtn.left).pressed
        = true :=
  (button_state_spec TrackedBtn.left
    [RawEvent.mouseDown MouseButton.left, RawEvent.escapeDown] 1).2.1 (by rfl)

/-- **C3.** The text filter: code point 9 (tab) passes through; 13 (carriage
return) is normalised to line feed 10; every other code point below 32 is
suppressed; 127 (delete) is suppressed; every other code point — 65 in
particular — passes through unchanged. -/
theorem text_filter_spec (c : ℕ) :
    text_char 9 = some 9 ∧
    text_char 13 = some 10 ∧
    (c < 32 → c ≠ 9 → c ≠ 13 → text_char c = none) ∧
    text_char 127 = none ∧
    (32 ≤ c → c ≠ 127 → text_char c = some c) ∧
    text_char 65 = some 65 := by
  refine ⟨rfl, rfl, ?_, rfl, ?_, rfl⟩
  · intro h1 h2 h3
    simp only [text_char]
    rw [if_pos (by omega), if_neg h2, if_neg h3]
  · intro h1 h2
    simp only [text_char]
    rw [if_neg (by omega), if_neg h2]

/-- Witness for **C3**: the filter at the control code 7 and at 65. -/
theorem text_filter_spec_witness :
    text_char 7 = none ∧ text_char 65 = some 65 :=
  ⟨(text_filter_spec 7).2.2.1 (by norm_num) (by norm_num) (by norm_num),
   (text_filter_spec 65).2.2.2.2.1 (by norm_num) (by norm_num)⟩

/-- **C9.** With ctrl down, the translated text event's filtered field is
`none` regardless of code point (even for the printable 65), while the raw
code point is carried unchanged; with ctrl up the filter `text_char` is
applied. -/
theorem received_character_ctrl (c : ℕ) :
    (receivedCharacter true c).ch = none ∧
    (receivedCharacter true c).codepoint = c ∧
    (receivedCharacter true 65).ch = none ∧
    (receivedCharacter false c).ch = text_char c := by
  exact ⟨rfl, rfl, rfl, rfl⟩

/-- **C7.** Addition and subtraction of coordinate units are component-wise
on the logical value and carry exactly the left operand's scale factor; the
right operand's scale factor never influences the result (replacing it by
any `f` leaves the result unchanged). -/
theorem screen2d_add_sub_spec (a b : Screen2d) (f : ℚ) :
    (a.add b).logical = (a.logical.1 + b.logical.1, a.logical.2 + b.logical.2) ∧
    (a.add b).hidpi_factor = a.hidpi_factor ∧
    (a.sub b).logical = (a.logical.1 - b.logical.1, a.logical.2 - b.logical.2) ∧
    (a.sub b).hidpi_factor = a.hidpi_factor ∧
    a.add { b with hidpi_factor := f } = a.add b ∧
    a.sub { b with hidpi_factor := f } = a.sub b := by
  exact ⟨rfl, rfl, rfl, rfl, rfl, rfl⟩

/-- **C8.** The unsigned-physical accessor faults (returns `none`) exactly
when a rounded physical component is negative; when both components are
non-negative it returns them as unsigned integers (casting back to the
signed values). -/
theorem physical_u32_spec (s : Screen2d) :
    (s.physical_u32 = none ↔ s.physical.1 < 0 ∨ s.physical.2 < 0) ∧
    (0 ≤ s.physical.1 → 0 ≤ s.physical.2 →
      s.physical_u32 = some (s.physical.1.toNat, s.physical.2.toNat) ∧
      ∀ p : ℕ × ℕ, s.physical_u32 = some p →
        (p.1 : ℤ) = s.physical.1 ∧ (p.2 : ℤ) = s.physical.2) := by
  constructor
  · simp only [Screen2d.physical_u32]
    split
    · simp_all
    · simp_all
  · intro h1 h2
    have hn : ¬(s.physical.1 < 0 ∨ s.physical.2 < 0) := by omega
    constructor
    · simp only [Screen2d.physical_u32]
      rw [if_neg hn]
    · intro p hp
      simp only [Screen2d.physical_u32] at hp
      rw [if_neg hn] at hp
      have hps : p = (s.physical.1.toNat, s.physical.2.toNat) :=
        (Option.some_injective _ hp).symm
      subst hps
      constructor
      · exact Int.toNat_of_nonneg h1
      · exact Int.toNat_of_nonneg h2

/-- Witness for **C8**: a unit with logical value (2, 3) at factor 1 has
non-negative rounded physical components and the accessor returns them. -/
theorem physical_u32_spec_witness :
    (Screen2d.from_logical (2, 3) 1).physical_u32 =
      some ((Screen2d.from_logical (2, 3) 1).physical.1.toNat,
            (Screen2d.from_logical (2, 3) 1).physical.2.toNat) :=
  ((physical_u32_spec (Screen2d.from_logical (2, 3) 1)).2
    (by norm_num [Screen2d.physical, Screen2d.to_physical, Screen2d.from_logical, rustRound])
    (by norm_num [Screen2d.physical, Screen2d.to_physical, Screen2d.from_logical, rustRound])).1

/-- **C4 counterexample.** The claim says constructing a coordinate unit with
a non-positive scale factor, and constructing a stepper with frequency 0,
fault at construction.  Neither does: `Screen2d::from_logical` performs no
scale-factor validation and returns an ordinary value carrying factor −1,
and `TimeStep::for_freq_ms(0)` returns an ordinary stepper with
`freq_nanos = 0`. -/
theorem config_validation_counterexample :
    Screen2d.from_logical (0, 0) (-1) =
      { logical := (0, 0), hidpi_factor := -1 } ∧
    (Screen2d.from_logical (0, 0) (-1)).hidpi_factor = -1 ∧
    TimeStep.for_freq_ms 0 =
      { freq_nanos := 0, max_missed := 1, elapsed_nanos := 0 } := by
  exact ⟨rfl, rfl, rfl⟩

/-- **C4 amended.** Of the three configuration checks the claim lists, only
the logical-line-height setter faults (exactly when `h < 1`); the
scale-factor check exists only on window-registry-entry construction
(`WindowData::new`, faulting exactly on non-positive factors), while
`Screen2d` construction stores any factor unconditionally and
`TimeStep::for_freq_ms` accepts any frequency, 0 included, without fault. -/
theorem config_validation_spec (dim : Screen2d) (h f : ℚ) (m : ℕ) (v : ℚ × ℚ) :
    (set_logical_line_height h = none ↔ h < 1) ∧
    (WindowData.new dim f = none ↔ f ≤ 0) ∧
    (Screen2d.from_logical v f).hidpi_factor = f ∧
    (TimeStep.for_freq_ms m).freq_nanos = m * 1000000 ∧
    (TimeStep.for_freq_ms m).max_missed = 1 := by
  refine ⟨?_, ?_, rfl, rfl, rfl⟩
  · simp only [set_logical_line_height]
    split <;> simp_all
  · simp only [WindowData.new]
    split <;> simp_all

/-- **C5.** A cursor-moved event stores the new position and resets the
activity-start to it exactly when no tracked button is pressed, leaving the
button states untouched; the drag-distance query returns current position
minus press-origin when some tracked button is pressed and `none`
otherwise.  Concretely: press left at logical (10,10), move to (10,40) —
drag distance reads (0,30); after release and a move to (50,50) the query
reports `none`. -/
theorem cursor_drag_spec (s : EventState) (p : Screen2d) :
    ((from_window_event s (RawEvent.cursorMoved p)).mouse_pos = p ∧
     (from_window_event s (RawEvent.cursorMoved p)).mouse_activity_start =
       (if s.is_any_mouse_button_pressed then s.mouse_activity_start else p) ∧
     (from_window_event s (RawEvent.cursorMoved p)).mouse_left = s.mouse_left ∧
     (from_window_event s (RawEvent.cursorMoved p)).mouse_middle = s.mouse_middle ∧
     (from_window_event s (RawEvent.cursorMoved p)).mouse_right = s.mouse_right) ∧
    ((s.is_any_mouse_button_pressed = false → s.get_mouse_drag_dist = none) ∧
     (s.is_any_mouse_button_pressed = true →
       ∃ origin, s.get_mouse_pressed_at = some origin ∧
         s.get_mouse_drag_dist = some (s.mouse_pos.sub origin))) ∧
    ((applyEvents (initState 1)
        [RawEvent.cursorMoved (Screen2d.from_logical (10, 10) 1),
         RawEvent.mouseDown MouseButton.left,
         RawEvent.cursorMoved (Screen2d.from_logical (10, 40) 1)]).get_mouse_drag_dist
       = some (Screen2d.from_logical (0, 30) 1) ∧
     (applyEvents (initState 1)
        [RawEvent.cursorMoved (Screen2d.from_logical (10, 10) 1),
         RawEvent.mouseDown MouseButton.left,
         RawEvent.cursorMoved (Screen2d.from_logical (10, 40) 1),
         RawEvent.mouseUp MouseButton.left,
         RawEvent.cursorMoved (Screen2d.from_logical (50, 50) 1)]).get_mouse_drag_dist
       = none) := by
  refine ⟨⟨?_, ?_, ?_, ?_, ?_⟩, ⟨?_, ?_⟩, ?_, ?_⟩
  · simp only [from_window_event]; split <;> rfl
  · simp only [from_window_event, EventState.is_any_mouse_button_pressed]
    split <;> rfl
  · simp only [from_window_event]; split <;> rfl
  · simp only [from_window_event]; split <;> rfl
  · simp only [from_window_event]; split <;> rfl
  · intro h
    simp only [EventState.is_any_mouse_button_pressed, Bool.or_eq_false_iff] at h
    simp [EventState.get_mouse_drag_dist, EventState.get_mouse_pressed_at,
      h.1.1, h.1.2, h.2]
  · intro h
    simp only [EventState.get_mouse_drag_dist, EventState.get_mouse_pressed_at]
    by_cases h1 : s.mouse_left.pressed
    · exact ⟨s.mouse_left.pressed_at, by simp [h1]⟩
    · by_cases h2 : s.mouse_middle.pressed
      · exact ⟨s.mouse_middle.pressed_at, by simp [h1, h2]⟩
      · by_cases h3 : s.mouse_right.pressed
        · exact ⟨s.mouse_right.pressed_at, by simp [h1, h2, h3]⟩
        · simp only [EventState.is_any_mouse_button_pressed] at h
          rw [Bool.or_eq_true, Bool.or_eq_true] at h
          simp [h1, h2, h3] at h
  · norm_num [applyEvents, initState, from_window_event, mouse_data_update,
      EventState.is_any_mouse_button_pressed, EventState.get_mouse_drag_dist,
      EventState.get_mouse_pressed_at, Screen2d.from_logical, Screen2d.sub,
      List.foldl]
  · norm_num [applyEvents, initState, from_window_event, mouse_data_update,
      EventState.is_any_mouse_button_pressed, EventState.get_mouse_drag_dist,
      EventState.get_mouse_pressed_at, Screen2d.from_logical, Screen2d.sub,
      List.foldl]

/-- Witness for **C5**: after press-left at (10,10) and a move to (10,40),
some tracked button is pressed, so the drag query yields position minus
origin. -/
theorem cursor_drag_spec_witness :
    ∃ origin,
      (applyEvents (initState 1)
        [RawEvent.cursorMoved (Screen2d.from_logical (10, 10) 1),
         RawEvent.mouseDown MouseButton.left,
         RawEvent.cursorMoved (Screen2d.from_logical (10, 40) 1)]).get_mouse_pressed_at
        = some origin ∧
      (applyEvents (initState 1)
        [RawEvent.cursorMoved (Screen2d.from_logical (10, 10) 1),
         RawEvent.mouseDown MouseButton.left,
         RawEvent.cursorMoved (Screen2d.from_logical (10, 40) 1)]).get_mouse_drag_dist
        = some ((applyEvents (initState 1)
            [RawEvent.cursorMoved (Screen2d.from_logical (10, 10) 1),
             RawEvent.mouseDown MouseButton.left,
             RawEvent.cursorMoved (Screen2d.from_logical (10, 40) 1)]).mouse_pos.sub
              origin) :=
  ((cursor_drag_spec (applyEvents (initState 1)
      [RawEvent.cursorMoved (Screen2d.from_logical (10, 10) 1),
       RawEvent.mouseDown MouseButton.left,
       RawEvent.cursorMoved (Screen2d.from_logical (10, 40) 1)])
      (Screen2d.from_logical (0, 0) 1)).2.1.2 (by rfl))

/-- **C10.** The press-origin query prefers the left button, then the middle,
then the right; the drag-distance query is its image under subtraction from
the current mouse position. -/
theorem pressed_at_priority (s : EventState) :
    (s.mouse_left.pressed = true →
      s.get_mouse_pressed_at = some s.mouse_left.pressed_at) ∧
    (s.mouse_left.pressed = false → s.mouse_middle.pressed = true →
      s.get_mouse_pressed_at = some s.mouse_middle.pressed_at) ∧
    (s.mouse_left.pressed = false → s.mouse_middle.pressed = false →
      s.mouse_right.pressed = true →
      s.get_mouse_pressed_at = some s.mouse_right.pressed_at) ∧
    (s.mouse_left.pressed = false → s.mouse_middle.pressed = false →
      s.mouse_right.pressed = false → s.get_mouse_pressed_at = none) ∧
    s.get_mouse_drag_dist =
      Option.map (fun origin => s.mouse_pos.sub origin) s.get_mouse_pressed_at := by
  refine ⟨?_, ?_, ?_, ?_, ?_⟩
  · intro h1; simp [EventState.get_mouse_pressed_at, h1]
  · intro h1 h2; simp [EventState.get_mouse_pressed_at, h1, h2]
  · intro h1 h2 h3; simp [EventState.get_mouse_pressed_at, h1, h2, h3]
  · intro h1 h2 h3; simp [EventState.get_mouse_pressed_at, h1, h2, h3]
  · cases hpa : s.get_mouse_pressed_at <;>
      simp [EventState.get_mouse_drag_dist, hpa]

/-- Witness for **C10**: with both the left and the right button pressed
(left at (1,1), right at (2,2)), the query returns the left origin. -/
theorem pressed_at_priority_witness :
    (applyEvents (initState 1)
      [RawEvent.cursorMoved (Screen2d.from_logical (1, 1) 1),
       RawEvent.mouseDown MouseButton.left,
       RawEvent.cursorMoved (Screen2d.from_logical (2, 2) 1),
       RawEvent.mouseDown MouseButton.right]).get_mouse_pressed_at =
    some (applyEvents (initState 1)
      [RawEvent.cursorMoved (Screen2d.from_logical (1, 1) 1),
       RawEvent.mouseDown MouseButton.left,
       RawEvent.cursorMoved (Screen2d.from_logical (2, 2) 1),
       RawEvent.mouseDown MouseButton.right]).mouse_left.pressed_at :=
  (pressed_at_priority _).1 (by rfl)

end Glu
